import Mathlib

/-!
Verification of the process-management core of `src/robot/libraries/Process.py`.

The Python code is shallowly embedded: pure helpers become Lean functions on
`List Char` / `String`, stateful objects (`ExecutionResult`, the registry)
become explicit state passing, fallible code returns `Except`.  External
collaborators that the spec declares out of scope (the interval parser
`timestr_to_secs`, path normalisation, text encoding/decoding) are taken as
function parameters, so every theorem quantifies over them.
-/

namespace RobotProcess

/-! ## Python string primitives

The Python string methods used by the code (`str.lower`, `str.upper`,
`str.startswith`, slicing) are modelled character-wise so that all
definitions evaluate by kernel reduction. -/

/-- Python `s.lower()` (ASCII case mapping). -/
def py_lower (s : String) : String := ⟨s.data.map Char.toLower⟩

/-- Python `s.upper()` (ASCII case mapping). -/
def py_upper (s : String) : String := ⟨s.data.map Char.toUpper⟩

/-- Python `s.startswith(p)`. -/
def py_startswith (s p : String) : Bool := p.data.isPrefixOf s.data

/-- Python `s[n:]`. -/
def py_drop (s : String) (n : Nat) : String := ⟨s.data.drop n⟩

instance {ε α : Type} [DecidableEq ε] [DecidableEq α] :
    DecidableEq (Except ε α) := fun a b =>
  match a, b with
  | .error e, .error f => decidable_of_iff (e = f) (by simp)
  | .ok x, .ok y => decidable_of_iff (x = y) (by simp)
  | .error _, .ok _ => isFalse (fun h => nomatch h)
  | .ok _, .error _ => isFalse (fun h => nomatch h)

/-! ## Text normalisation (`ExecutionResult._format_output`) -/

/-- Python `output.replace("\r\n", "\n")`: left-to-right, non-overlapping
replacement of every CR-LF pair by LF. -/
def replaceCRLF : List Char → List Char
  | [] => []
  | [c] => [c]
  | c :: d :: rest =>
    if c = '\r' ∧ d = '\n' then '\n' :: replaceCRLF rest
    else c :: replaceCRLF (d :: rest)

/-- Python `if output.endswith("\n"): output = output[:-1]`: strips one
trailing line feed, if present. -/
def strip_trailing_newline (l : List Char) : List Char :=
  if l.getLast? = some '\n' then l.dropLast else l

/-- Embeds `ExecutionResult._format_output` on already-decoded text: normalise CRLF
to LF, then strip a single trailing newline.  (`console_decode`, an excluded
encoding collaborator, is the identity on decoded text and is not modelled.) -/
def format_output (l : List Char) : List Char :=
  strip_trailing_newline (replaceCRLF l)

/-! ## `wait_for_process` timeout handling -/

/-- The `timeout` argument of `wait_for_process`: Python `None`, a string, or
a number (modelled as a rational, standing for a float of seconds). -/
inductive TimeoutArg
  | null
  | str (s : String)
  | num (q : Rat)

/-- Python truthiness test `not timeout` on the timeout argument:
`None`, the empty string and `0` are falsy. -/
def timeout_is_falsy : TimeoutArg → Bool
  | .null => true
  | .str s => s = ""
  | .num q => q = 0

/-- The `isinstance(timeout, str) and timeout.upper() == "NONE"` test. -/
def is_none_string : TimeoutArg → Bool
  | .str s => py_upper s = "NONE"
  | _ => false

/-- Embeds `Process._get_timeout`: `NONE` strings and falsy values become `-1`,
anything else goes through `timestr_to_secs` (the excluded interval parser,
passed in as `parse`; on a number it returns that number of seconds). -/
def get_timeout (parse : String → Rat) (t : TimeoutArg) : Rat :=
  if is_none_string t || timeout_is_falsy t then -1
  else
    match t with
    | .null => -1
    | .str s => parse s
    | .num q => q

/-- What `wait_for_process` hands back to the caller. -/
inductive WaitReturn
  /-- Means `_wait(process)` was entered with no deadline: the keyword blocks until
  the process exits and returns the finalized result object. -/
  | waited
  /-- Python `None`: the process was left running. -/
  | noResult
  /-- The result object produced by `terminate_process(handle)`. -/
  | terminateResult
  /-- The result object produced by `terminate_process(handle, kill=True)`. -/
  | killResult
deriving DecidableEq

/-- Embeds `Process.terminate_process`: with `kill` set it forcefully kills the
process, otherwise it terminates gracefully; either way it returns the
finalized result of the chosen action. -/
def terminate_process (kill : Bool) : WaitReturn :=
  if kill then .killResult else .terminateResult

/-- Embeds `Process._manage_process_timeout` (receives `on_timeout` already
lower-cased by the caller). -/
def manage_process_timeout (on_timeout : String) : WaitReturn :=
  if on_timeout = "terminate" then terminate_process false
  else if on_timeout = "kill" then terminate_process true
  else .noResult

/-- Embeds `Process.wait_for_process`: resolve the timeout; if it is positive and
the process does not stop within it, consult `on_timeout`; otherwise block in
`_wait` until the process exits.  `stopped` abstracts
`_process_is_stopped(process, t)`. -/
def wait_for_process (parse : String → Rat) (stopped : Rat → Bool)
    (timeout : TimeoutArg) (on_timeout : String) : WaitReturn :=
  let t := get_timeout parse timeout
  if 0 < t ∧ stopped t = false then manage_process_timeout (py_lower on_timeout)
  else .waited

/-! ## The `_wait` drain loop -/

/-- One iteration's outcome of `process.communicate(timeout=0.1)` inside
`Process._wait`. -/
inductive CommEvent
  /-- Means `subprocess.TimeoutExpired`: the process is still running, loop again. -/
  | expired
  /-- Means `robot.errors.TimeoutExceeded`: an external cancellation arrived. -/
  | cancelled
  /-- Means `communicate` returned the drained stdout and stderr text. -/
  | done (stdout stderr : List Char)
deriving DecidableEq

/-- Result of the `while True` loop in `Process._wait`. -/
inductive WaitOutcome
  /-- The finalized result: formatted outputs plus the return code. -/
  | result (stdout stderr : List Char) (rc : Int)
  /-- Means `TimeoutExceeded` was re-raised to the caller. -/
  | raised
  /-- The modelled event list ran out while the loop was still polling. -/
  | pending
deriving DecidableEq

/-- The `while True` drain loop of `Process._wait`, driven by the sequence of
`communicate` outcomes.  The second component tracks whether the OS process is
still alive: on `TimeoutExceeded` the loop calls `_kill(process)` (alive
becomes `false`) and then re-raises. -/
def wait_loop : List CommEvent → Int → Bool → WaitOutcome × Bool
  | [], _, alive => (.pending, alive)
  | .expired :: rest, rc, alive => wait_loop rest rc alive
  | .cancelled :: _, _, _ => (.raised, false)
  | .done out err :: _, rc, alive =>
    (.result (format_output out) (format_output err) rc, alive)

/-! ## `get_process_result` -/

/-- The observable fields of a finalized `ExecutionResult`, as read by
`get_process_result`. -/
structure ExecResult where
  rc : Option Int
  stdout : List Char
  stderr : List Char
  stdout_path : Option String
  stderr_path : Option String
deriving DecidableEq

/-- One attribute value, tagged by its Python type. -/
inductive AttrVal
  | vInt (i : Option Int)
  | vText (s : List Char)
  | vPath (p : Option String)
deriving DecidableEq

/-- What `get_process_result` returns: the whole result object, a single
unpacked attribute, or a tuple of attributes. -/
inductive GetResultReturn
  | whole (r : ExecResult)
  | single (a : AttrVal)
  | tuple (l : List AttrVal)
deriving DecidableEq

/-- The fixed attribute order used by `Process._get_result_attributes`. -/
def result_attributes (r : ExecResult) : List AttrVal :=
  [.vInt r.rc, .vText r.stdout, .vText r.stderr,
   .vPath r.stdout_path, .vPath r.stderr_path]

/-- Embeds `Process._get_result_attributes`: the attributes whose include flag is
true, in the fixed order. -/
def get_result_attributes (r : ExecResult) (includes : List Bool) : List AttrVal :=
  ((result_attributes r).zip includes).filterMap
    (fun p => if p.2 then some p.1 else none)

/-- Whether an `Except` is in its error constructor. -/
def except_is_error {ε α : Type} : Except ε α → Bool
  | .error _ => true
  | .ok _ => false

/-- Embeds `Process.get_process_result`: error while the return code is unset;
otherwise the whole result (nothing selected), the lone attribute (one
selected) or the tuple of selected attributes. -/
def get_process_result (r : ExecResult)
    (rc stdout stderr stdout_path stderr_path : Bool) :
    Except String GetResultReturn :=
  if r.rc = none then
    .error "Getting results of unfinished processes is not supported."
  else
    match get_result_attributes r [rc, stdout, stderr, stdout_path, stderr_path] with
    | [] => .ok (.whole r)
    | [a] => .ok (.single a)
    | l => .ok (.tuple l)

/-- Whether a `get_process_result` return value is a tuple. -/
def ret_is_tuple : GetResultReturn → Bool
  | .tuple _ => true
  | _ => false

/-- A finished process result with stdout "out", used as a concrete input. -/
def exResult : ExecResult :=
  ⟨some 0, "out".data, "".data, none, none⟩

/-! ## Stream destination resolution (`ProcessConfiguration`) -/

/-- A resolved stdout/stderr destination: `subprocess.PIPE`, the
`subprocess.STDOUT` merge marker, or an opened file object whose `name` is
the recorded path. -/
inductive StreamDest
  | pipe
  | stdoutMarker
  | fileStream (path : String)
deriving DecidableEq

/-- Python truthiness of an optional string configuration value. -/
def truthy : Option String → Bool
  | none => false
  | some s => !(s = "")

/-- Embeds `ProcessConfiguration._new_stream`: "DEVNULL" opens `os.devnull`, any
other truthy name opens `normpath(join(cwd, name))` for writing, a falsy
value means an in-memory pipe.  `resolve` abstracts the excluded path
utilities (`normpath(join(cwd, ·))`), `devnull` the platform's `os.devnull`. -/
def new_stream (resolve : String → String) (devnull : String)
    (name : Option String) : StreamDest :=
  if name = some "DEVNULL" then .fileStream devnull
  else
    match name with
    | some s => if s = "" then .pipe else .fileStream (resolve s)
    | none => .pipe

/-- Embeds `ProcessConfiguration._get_stderr`: a truthy stderr value equal to the
literal "STDOUT" marker or to the raw stdout value is aliased to the resolved
stdout stream, or to the `subprocess.STDOUT` marker when stdout is a pipe. -/
def get_stderr (resolve : String → String) (devnull : String)
    (stderr stdout : Option String) (stdout_stream : StreamDest) : StreamDest :=
  if truthy stderr ∧ (stderr = some "STDOUT" ∨ stderr = stdout) then
    if stdout_stream ≠ .pipe then stdout_stream else .stdoutMarker
  else new_stream resolve devnull stderr

/-- Embeds `ExecutionResult._get_path`: the `name` of a custom (file) stream,
`None` for `PIPE`/`STDOUT`/`None` destinations. -/
def stream_path : StreamDest → Option String
  | .fileStream p => some p
  | _ => none

/-! ## `ExecutionResult` state: lazy reads and stream closing -/

/-- A live stream object owned by the process/result: open or closed, with
the text still buffered in it. -/
structure StreamSt where
  closed : Bool
  content : List Char
deriving DecidableEq

/-- The mutable state of an `ExecutionResult`: output paths, the cached
`_stdout`/`_stderr` values, the three standard stream objects of the
`Popen` (absent when not piped) and the custom file streams. -/
structure ResultSt where
  stdout_path : Option String
  stderr_path : Option String
  cached_stdout : Option (List Char)
  cached_stderr : Option (List Char)
  proc_stdout : Option StreamSt
  proc_stderr : Option StreamSt
  proc_stdin : Option StreamSt
  custom_streams : List StreamSt
deriving DecidableEq

/-- Embeds `ExecutionResult._is_open`: the stream exists and is not closed. -/
def is_open : Option StreamSt → Bool
  | none => false
  | some s => !s.closed

/-- Embeds `ExecutionResult._read_stream`: with a path, open and read that file
(`files` abstracts the file system); otherwise read and drain the live
stream if it is open, else return the empty string.  The read text is
normalised by `_format_output`. -/
def read_stream (files : String → List Char) (path : Option String)
    (stream : Option StreamSt) : List Char × Option StreamSt :=
  match path with
  | some p => (format_output (files p), stream)
  | none =>
    match stream with
    | some st =>
      if st.closed then ([], some st)
      else (format_output st.content, some { st with content := [] })
    | none => ([], none)

/-- Embeds `ExecutionResult._read_stdout`: read and cache `_stdout`. -/
def read_stdout (files : String → List Char) (s : ResultSt) : ResultSt :=
  let r := read_stream files s.stdout_path s.proc_stdout
  { s with cached_stdout := some r.1, proc_stdout := r.2 }

/-- Embeds `ExecutionResult._read_stderr`: read and cache `_stderr`. -/
def read_stderr (files : String → List Char) (s : ResultSt) : ResultSt :=
  let r := read_stream files s.stderr_path s.proc_stderr
  { s with cached_stderr := some r.1, proc_stderr := r.2 }

/-- The `ExecutionResult.stdout` property: return the cached value, reading
it first if it is not cached yet. -/
def stdout_get (files : String → List Char) (s : ResultSt) :
    List Char × ResultSt :=
  match s.cached_stdout with
  | some v => (v, s)
  | none =>
    let r := read_stream files s.stdout_path s.proc_stdout
    (r.1, { s with cached_stdout := some r.1, proc_stdout := r.2 })

/-- The `ExecutionResult.stderr` property. -/
def stderr_get (files : String → List Char) (s : ResultSt) :
    List Char × ResultSt :=
  match s.cached_stderr with
  | some v => (v, s)
  | none =>
    let r := read_stream files s.stderr_path s.proc_stderr
    (r.1, { s with cached_stderr := some r.1, proc_stderr := r.2 })

/-- Models `stream.close()`: closing an already closed stream is an error in this
model, so that the `_is_open` guards in `close_streams` carry the proof
obligation that no double close ever happens. -/
def close_stream (st : StreamSt) : Except String StreamSt :=
  if st.closed then .error "stream already closed"
  else .ok { st with closed := true }

/-- One `if self._is_open(stream): stream.close()` step on an optional
stream. -/
def close_opt (st : Option StreamSt) : Except String (Option StreamSt) :=
  match st with
  | none => .ok none
  | some t => if !t.closed then (close_stream t).map some else .ok (some t)

/-- The same guard-then-close step over the custom stream list. -/
def close_list : List StreamSt → Except String (List StreamSt)
  | [] => .ok []
  | t :: rest => do
    let t' ← if !t.closed then close_stream t else .ok t
    let rest' ← close_list rest
    .ok (t' :: rest')

/-- A stream forced into the closed state. -/
def mark_closed (st : Option StreamSt) : Option StreamSt :=
  st.map fun t => { t with closed := true }

/-- A stream list forced into the closed state. -/
def mark_closed_list (l : List StreamSt) : List StreamSt :=
  l.map fun t => { t with closed := true }

/-- Embeds `ExecutionResult.close_streams`: first
`_get_and_read_standard_streams` re-reads stdout/stderr if their live
streams are still open, then every open stream (stdin, stdout, stderr and
the custom ones) is closed. -/
def close_streams (files : String → List Char) (s : ResultSt) :
    Except String ResultSt := do
  let s := if is_open s.proc_stdout then read_stdout files s else s
  let s := if is_open s.proc_stderr then read_stderr files s else s
  let si ← close_opt s.proc_stdin
  let so ← close_opt s.proc_stdout
  let se ← close_opt s.proc_stderr
  let cs ← close_list s.custom_streams
  .ok { s with proc_stdin := si, proc_stdout := so, proc_stderr := se,
               custom_streams := cs }

/-- The state `close_streams` drives a result into: the pending reads done,
every owned stream closed.  Used to state what `close_streams` returns. -/
def closed_result (files : String → List Char) (s : ResultSt) : ResultSt :=
  let s2 := if is_open s.proc_stdout then read_stdout files s else s
  let s3 := if is_open s2.proc_stderr then read_stderr files s2 else s2
  { s3 with proc_stdin := mark_closed s3.proc_stdin,
            proc_stdout := mark_closed s3.proc_stdout,
            proc_stderr := mark_closed s3.proc_stderr,
            custom_streams := mark_closed_list s3.custom_streams }

/-! ## The process registry -/

/-- Modelled from the spec: the registry used as `self._processes` in
`Process.py` is `robot.utils.ConnectionCache`, whose source is not under
`src/`.  Per the spec it is an "ordered collection of ProcessHandles keyed by
1-based insertion index and, optionally, alias", with a single current/active
pointer; "aliases are unique at registration time; duplicate alias
registration is an error". -/
structure Registry (α : Type) where
  connections : List α
  aliases : List (String × Nat)
  current : Option Nat
deriving DecidableEq

/-- Modelled from the spec: registering a process appends it under the next
1-based index, makes it current, and records the alias; a duplicate alias is
a configuration error and the registry is left unchanged. -/
def register {α : Type} (r : Registry α) (p : α) (al : Option String) :
    Except String (Registry α) :=
  match al with
  | none =>
    .ok ⟨r.connections ++ [p], r.aliases, some (r.connections.length + 1)⟩
  | some a =>
    if (r.aliases.lookup a).isSome then
      .error "Duplicate alias registration."
    else
      .ok ⟨r.connections ++ [p], r.aliases ++ [(a, r.connections.length + 1)],
           some (r.connections.length + 1)⟩

/-- The process tracked under a 1-based index. -/
def get_connection {α : Type} (r : Registry α) (i : Nat) : Option α :=
  r.connections[i - 1]?

/-! ## Environment construction (`ProcessConfiguration._construct_env`) -/

/-- Python `dict` assignment `env[k] = v` on an association list: overwrite
the existing binding or append a new one. -/
def env_set (env : List (String × String)) (k v : String) :
    List (String × String) :=
  if (env.lookup k).isSome then
    env.map (fun p => if p.1 = k then (k, v) else p)
  else env ++ [(k, v)]

/-- Python truthiness of the `env` argument: `None` and `{}` are falsy. -/
def env_truthy : Option (List (String × String)) → Bool
  | none => false
  | some l => !l.isEmpty

/-- Embeds `ProcessConfiguration._get_initial_env`: a truthy explicit mapping is
encoded (`enc` abstracts the excluded `system_encode`) and used as is; else
with extra `env:` overrides present the inherited environment `osenv`
(`os.environ.copy()`) is the base; else `None` (inherit at spawn time). -/
def get_initial_env (enc : String → String) (osenv : List (String × String))
    (env : Option (List (String × String))) (extra : List (String × String)) :
    Option (List (String × String)) :=
  if env_truthy env then
    some ((env.getD []).map fun p => (enc p.1, enc p.2))
  else if extra ≠ [] then some osenv
  else none

/-- Embeds `ProcessConfiguration._add_to_env`: every extra keyword argument must use
the `env:<name>=<value>` syntax; its stripped name and value are encoded and
layered onto the base environment. -/
def add_to_env (enc : String → String) (env : List (String × String)) :
    List (String × String) → Except String (List (String × String))
  | [] => .ok env
  | (name, value) :: rest =>
    if py_startswith name "env:" then
      add_to_env enc (env_set env (enc (py_drop name 4)) (enc value)) rest
    else .error "Keyword argument is not supported by this keyword."

/-- Embeds `ProcessConfiguration._construct_env` (POSIX branch; the Windows-only
`NormalizedDict` wrapping and key upper-casing is platform normalisation not
touched by the claims).  `.ok none` means the spawned process inherits the
parent environment (`env=None` for `Popen`). -/
def construct_env (enc : String → String) (osenv : List (String × String))
    (env : Option (List (String × String))) (extra : List (String × String)) :
    Except String (Option (List (String × String))) :=
  match get_initial_env enc osenv env extra with
  | none => .ok none
  | some e => do
    let e2 ← add_to_env enc e extra
    .ok (some e2)

/-- The successful layering of prefixed overrides, used to state what
`construct_env` produces: fold `env:NAME=value` assignments over the base. -/
def layer_env (enc : String → String) (base : List (String × String))
    (extra : List (String × String)) : List (String × String) :=
  extra.foldl (fun b p => env_set b (enc (py_drop p.1 4)) (enc p.2)) base

/-! ## Command line split/join -/

/-- Modelled from the spec: `cmdline2list` (robot.utils, not under `src/`)
with the default `escaping=False`, per `split_command_line`'s documentation:
the string is split from spaces, an argument surrounded in quotes may contain
spaces, and without escaping a backslash is an ordinary character.  `inQ`
says whether the scanner is inside quotes, `cur` is the token being built
(`none` when no token has started). -/
def split_cl : List Char → Bool → Option (List Char) → List (List Char)
  | [], _, none => []
  | [], _, some t => [t]
  | c :: rest, inQ, cur =>
    if c = '"' then split_cl rest (!inQ) (some (cur.getD []))
    else if c = ' ' ∧ inQ = false then
      match cur with
      | none => split_cl rest false none
      | some t => t :: split_cl rest false none
    else split_cl rest inQ (some (cur.getD [] ++ [c]))

/-- Embeds `Process.split_command_line` with default `escaping=False`. -/
def split_command_line (s : List Char) : List (List Char) :=
  split_cl s false none

/-- Modelled from the spec: quote escaping per `join_command_line`'s
documentation, "possible quotes are escaped with a backslash". -/
def escape_quotes : List Char → List Char
  | [] => []
  | c :: rest =>
    if c = '"' then '\\' :: '"' :: escape_quotes rest
    else c :: escape_quotes rest

/-- Modelled from the spec: one argument as it appears on the joined command
line — "arguments containing spaces are surrounded with quotes". -/
def quote_arg (a : List Char) : List Char :=
  if ' ' ∈ a then '"' :: (escape_quotes a ++ ['"']) else escape_quotes a

/-- Modelled from the spec: `Process.join_command_line`
(`subprocess.list2cmdline`, not under `src/`), per its documentation:
"arguments are delimited with a space, arguments containing spaces are
surrounded with quotes, and possible quotes are escaped with a backslash". -/
def join_command_line : List (List Char) → List Char
  | [] => []
  | [a] => quote_arg a
  | a :: rest => quote_arg a ++ ' ' :: join_command_line rest

/-! ## Theorems -/

theorem replaceCRLF_of_no_cr : ∀ l : List Char, '\r' ∉ l → replaceCRLF l = l
  | [], _ => rfl
  | [_], _ => rfl
  | c :: d :: rest, h => by
    have hc : ¬(c = '\r' ∧ d = '\n') := by
      rintro ⟨rfl, -⟩; exact h (List.mem_cons_self _ _)
    simp only [replaceCRLF, if_neg hc]
    exact congrArg (c :: ·)
      (replaceCRLF_of_no_cr (d :: rest) (fun m => h (List.mem_cons_of_mem _ m)))

/-- C4: every CR-LF in captured output is replaced by LF and exactly one
trailing newline (if present) is stripped, at most once and not recursively;
in particular the raw output "line1\r\nline2\r\n" becomes "line1\nline2". -/
theorem format_output_policy (l : List Char) :
    format_output "line1\r\nline2\r\n".data = "line1\nline2".data
    ∧ ('\r' ∉ l → format_output (l ++ ['\n']) = l)
    ∧ ('\r' ∉ l → l.getLast? ≠ some '\n' → format_output l = l) := by
  refine ⟨by decide, ?_, ?_⟩
  · intro h
    have h2 : '\r' ∉ l ++ ['\n'] := by
      intro m
      rcases List.mem_append.mp m with m | m
      · exact h m
      · exact absurd (List.mem_singleton.mp m) (by decide)
    rw [format_output, replaceCRLF_of_no_cr _ h2, strip_trailing_newline,
        if_pos (by rw [List.getLast?_concat])]
    exact List.dropLast_concat
  · intro h hl
    rw [format_output, replaceCRLF_of_no_cr _ h, strip_trailing_newline,
        if_neg hl]

theorem format_output_policy_witness :
    format_output ("ab".data ++ ['\n']) = "ab".data
    ∧ format_output "ab".data = "ab".data :=
  ⟨(format_output_policy "ab".data).2.1 (by decide),
   (format_output_policy "ab".data).2.2 (by decide) (by decide)⟩

theorem wait_for_process_nonpos (parse : String → Rat) (stopped : Rat → Bool)
    (ot : String) (targ : TimeoutArg) (h : get_timeout parse targ ≤ 0) :
    wait_for_process parse stopped targ ot = .waited := by
  unfold wait_for_process
  rw [if_neg]
  rintro ⟨h1, -⟩
  exact absurd h1 (not_lt.mpr h)

theorem get_timeout_num_pos (parse : String → Rat) (t : Rat) (ht : 0 < t) :
    get_timeout parse (.num t) = t := by
  unfold get_timeout
  rw [if_neg]
  simp [is_none_string, timeout_is_falsy, ht.ne']

/-- C1: a null / "NONE" (case-insensitive) / zero / negative timeout makes
`wait_for_process` wait indefinitely for process exit; for a positive timeout
that elapses before exit, on_timeout "continue" leaves the process running
and returns an absent result, "terminate" invokes graceful termination and
returns its result, "kill" invokes forceful kill and returns its result. -/
theorem wait_for_process_timeout_policy (parse : String → Rat)
    (stopped : Rat → Bool) (ot s : String) (q t : Rat) :
    wait_for_process parse stopped .null ot = .waited
    ∧ (py_upper s = "NONE" → wait_for_process parse stopped (.str s) ot = .waited)
    ∧ wait_for_process parse stopped (.num 0) ot = .waited
    ∧ (q ≤ 0 → wait_for_process parse stopped (.num q) ot = .waited)
    ∧ (0 < t → stopped t = false →
        wait_for_process parse stopped (.num t) "continue" = .noResult
        ∧ wait_for_process parse stopped (.num t) "terminate" = terminate_process false
        ∧ wait_for_process parse stopped (.num t) "kill" = terminate_process true) := by
  refine ⟨?_, ?_, ?_, ?_, ?_⟩
  · exact wait_for_process_nonpos parse stopped ot .null (by norm_num [get_timeout])
  · intro hs
    refine wait_for_process_nonpos parse stopped ot (.str s) ?_
    unfold get_timeout
    rw [if_pos (by simp [is_none_string, hs])]
    norm_num
  · exact wait_for_process_nonpos parse stopped ot (.num 0)
      (by norm_num [get_timeout, is_none_string, timeout_is_falsy])
  · intro hq
    refine wait_for_process_nonpos parse stopped ot (.num q) ?_
    rcases eq_or_lt_of_le hq with rfl | hq'
    · norm_num [get_timeout, is_none_string, timeout_is_falsy]
    · unfold get_timeout
      rw [if_neg]
      · exact hq
      · simp [is_none_string, timeout_is_falsy, ne_of_lt hq']
  · intro ht hstop
    have key : ∀ ot' : String, wait_for_process parse stopped (.num t) ot'
        = manage_process_timeout (py_lower ot') := by
      intro ot'
      unfold wait_for_process
      rw [get_timeout_num_pos parse t ht, if_pos ⟨ht, hstop⟩]
    exact ⟨by rw [key]; decide, by rw [key]; decide, by rw [key]; decide⟩

theorem wait_for_process_timeout_policy_witness :
    wait_for_process (fun _ => 1) (fun _ => false) (.str "none") "x" = .waited
    ∧ wait_for_process (fun _ => 1) (fun _ => false) (.num (-3)) "x" = .waited
    ∧ wait_for_process (fun _ => 1) (fun _ => false) (.num 5) "kill"
        = terminate_process true := by
  have h := wait_for_process_timeout_policy (fun _ => 1) (fun _ => false)
    "x" "none" (-3) 5
  exact ⟨h.2.1 (by decide), h.2.2.2.1 (by norm_num),
         (h.2.2.2.2 (by norm_num) rfl).2.2⟩

/-- C10: an on_timeout value whose lowercase form is neither "terminate" nor
"kill" makes `wait_for_process` behave on timeout expiry exactly like
"continue": the process is left running and None is returned, with no
validation error. -/
theorem unknown_on_timeout_continues (parse : String → Rat)
    (stopped : Rat → Bool) (t : Rat) (ot : String) (h1 : 0 < t)
    (h2 : stopped t = false) (h3 : py_lower ot ≠ "terminate")
    (h4 : py_lower ot ≠ "kill") :
    wait_for_process parse stopped (.num t) ot = .noResult := by
  unfold wait_for_process
  rw [get_timeout_num_pos parse t h1, if_pos ⟨h1, h2⟩,
      manage_process_timeout, if_neg h3, if_neg h4]

theorem unknown_on_timeout_continues_witness :
    wait_for_process (fun _ => 1) (fun _ => false) (.num 1) "destroy"
      = .noResult :=
  unknown_on_timeout_continues (fun _ => 1) (fun _ => false) 1 "destroy"
    (by norm_num) rfl (by decide) (by decide)

/-- C2: if the external cancellation `TimeoutExceeded` arrives while the
drain-wait loop of `_wait` is draining process output, the process is
forcefully killed before the cancellation is re-raised: the outcome is the
re-raised exception (never a partially drained result) and the process is no
longer alive. -/
theorem cancellation_kills_process (pre rest : List CommEvent) (rc : Int)
    (alive : Bool) (h : ∀ e ∈ pre, e = CommEvent.expired) :
    wait_loop (pre ++ CommEvent.cancelled :: rest) rc alive
      = (.raised, false) := by
  induction pre with
  | nil => rfl
  | cons e p ih =>
    have he : e = CommEvent.expired := h e (List.mem_cons_self e p)
    subst he
    exact ih (fun x hx => h x (List.mem_cons_of_mem _ hx))

theorem cancellation_kills_process_witness :
    wait_loop [CommEvent.expired, CommEvent.cancelled] 0 true
      = (.raised, false) :=
  cancellation_kills_process [CommEvent.expired] [] 0 true (by decide)

/-- C3 counterexample: with the process finished and exactly one attribute
(stdout) requested, `get_process_result` succeeds but returns the bare
attribute, not a tuple of the requested attributes as the claim states. -/
theorem get_process_result_single_not_tuple :
    get_process_result exResult false true false false false
      = .ok (.single (.vText "out".data))
    ∧ ret_is_tuple (GetResultReturn.single (.vText "out".data)) = false
    ∧ GetResultReturn.single (.vText "out".data) ≠ .whole exResult := by
  decide

/-- C3 (amended): `get_process_result` raises an error if and only if the
selected process's return code is still unset; once the return code is set
the same call succeeds and returns the full result object when no selectors
are given, the single requested attribute itself when exactly one is
selected, and a tuple of the requested attributes in the fixed order
(rc, stdout, stderr, stdout path, stderr path) when two or more are
selected. -/
theorem get_process_result_policy (r : ExecResult) (b1 b2 b3 b4 b5 : Bool) :
    (except_is_error (get_process_result r b1 b2 b3 b4 b5) = true ↔ r.rc = none)
    ∧ (r.rc ≠ none →
        (get_result_attributes r [b1, b2, b3, b4, b5] = [] →
          get_process_result r b1 b2 b3 b4 b5 = .ok (.whole r))
        ∧ (∀ a, get_result_attributes r [b1, b2, b3, b4, b5] = [a] →
            get_process_result r b1 b2 b3 b4 b5 = .ok (.single a))
        ∧ (∀ a b l, get_result_attributes r [b1, b2, b3, b4, b5] = a :: b :: l →
            get_process_result r b1 b2 b3 b4 b5
              = .ok (.tuple (a :: b :: l)))) := by
  constructor
  · constructor
    · intro h
      by_contra hne
      rcases hm : get_result_attributes r [b1, b2, b3, b4, b5] with
        _ | ⟨a, _ | ⟨b, l⟩⟩ <;>
        simp [get_process_result, hne, hm, except_is_error] at h
    · intro h
      simp [get_process_result, h, except_is_error]
  · intro hne
    refine ⟨?_, ?_, ?_⟩
    · intro hm
      simp [get_process_result, hne, hm]
    · intro a hm
      simp [get_process_result, hne, hm]
    · intro a b l hm
      simp [get_process_result, hne, hm]

theorem get_process_result_policy_witness :
    get_process_result exResult true true false false false
      = .ok (.tuple [.vInt (some 0), .vText "out".data]) :=
  ((get_process_result_policy exResult true true false false false).2
    (by decide)).2.2 (.vInt (some 0)) (.vText "out".data) [] (by decide)

theorem new_stream_some_ne_pipe (resolve : String → String) (devnull f : String)
    (hf : f ≠ "") : new_stream resolve devnull (some f) ≠ .pipe := by
  unfold new_stream
  rcases eq_or_ne f "DEVNULL" with rfl | hd
  · simp
  · simp [hd, hf]

/-- C5: a truthy stderr configuration equal to the literal "STDOUT" marker or
to the already-given stdout value is aliased onto the resolved stdout stream:
with stdout redirected to a file the two destinations are the same stream
object and their recorded paths coincide (and are set); with stdout an
in-memory pipe, stderr becomes the `subprocess.STDOUT` merge marker. -/
theorem stderr_alias_to_stdout (resolve : String → String) (devnull : String)
    (stderr stdout : Option String) (f : String)
    (hs : truthy stderr = true)
    (hmark : stderr = some "STDOUT" ∨ stderr = stdout) :
    (stdout = some f → f ≠ "" →
      get_stderr resolve devnull stderr stdout (new_stream resolve devnull stdout)
        = new_stream resolve devnull stdout
      ∧ stream_path (get_stderr resolve devnull stderr stdout
            (new_stream resolve devnull stdout))
        = stream_path (new_stream resolve devnull stdout)
      ∧ (stream_path (new_stream resolve devnull stdout)).isSome = true)
    ∧ (new_stream resolve devnull stdout = .pipe →
      get_stderr resolve devnull stderr stdout (new_stream resolve devnull stdout)
        = .stdoutMarker) := by
  constructor
  · rintro rfl hf
    have hne := new_stream_some_ne_pipe resolve devnull f hf
    have halias : get_stderr resolve devnull stderr (some f)
        (new_stream resolve devnull (some f))
        = new_stream resolve devnull (some f) := by
      unfold get_stderr
      rw [if_pos ⟨hs, hmark⟩, if_pos hne]
    refine ⟨halias, by rw [halias], ?_⟩
    unfold new_stream
    rcases eq_or_ne f "DEVNULL" with rfl | hd
    · simp [stream_path]
    · simp [hd, hf, stream_path]
  · intro hpipe
    unfold get_stderr
    rw [if_pos ⟨hs, hmark⟩, hpipe, if_neg (by simp)]

theorem stderr_alias_to_stdout_witness :
    get_stderr (fun p => p) "/dev/null" (some "STDOUT") (some "out.txt")
        (new_stream (fun p => p) "/dev/null" (some "out.txt"))
      = new_stream (fun p => p) "/dev/null" (some "out.txt")
    ∧ get_stderr (fun p => p) "/dev/null" (some "STDOUT") none
        (new_stream (fun p => p) "/dev/null" none)
      = .stdoutMarker :=
  ⟨((stderr_alias_to_stdout (fun p => p) "/dev/null" (some "STDOUT")
      (some "out.txt") "out.txt" (by decide) (Or.inl rfl)).1 rfl (by decide)).1,
   (stderr_alias_to_stdout (fun p => p) "/dev/null" (some "STDOUT")
      none "out.txt" (by decide) (Or.inl rfl)).2 rfl⟩

theorem close_opt_eq (st : Option StreamSt) :
    close_opt st = .ok (mark_closed st) := by
  rcases st with _ | ⟨c, content⟩
  · rfl
  · cases c <;> rfl

theorem is_open_mark_closed (st : Option StreamSt) :
    is_open (mark_closed st) = false := by
  rcases st with _ | t <;> rfl

theorem mark_closed_idem (st : Option StreamSt) :
    mark_closed (mark_closed st) = mark_closed st := by
  rcases st with _ | t <;> rfl

theorem close_list_eq (l : List StreamSt) :
    close_list l = .ok (mark_closed_list l) := by
  induction l with
  | nil => rfl
  | cons t rest ih =>
    rcases t with ⟨c, content⟩
    cases c <;>
      simp [close_list, close_stream, ih, mark_closed_list, Bind.bind,
            Except.bind]

theorem mark_closed_list_idem (l : List StreamSt) :
    mark_closed_list (mark_closed_list l) = mark_closed_list l := by
  induction l with
  | nil => rfl
  | cons t rest ih =>
    simp only [mark_closed_list, List.map_cons] at ih ⊢
    rw [ih]

theorem close_streams_eq (files : String → List Char) (s : ResultSt) :
    close_streams files s = .ok (closed_result files s) := by
  simp only [close_streams, closed_result]
  rw [close_opt_eq, close_opt_eq, close_opt_eq, close_list_eq]
  rfl

theorem closed_result_idem (files : String → List Char) (s : ResultSt) :
    closed_result files (closed_result files s) = closed_result files s := by
  conv_lhs => rw [closed_result]
  simp only [closed_result, is_open_mark_closed, Bool.false_eq_true, if_false,
             mark_closed_idem, mark_closed_list_idem]

/-- C6: on a `ExecutionResult`, reading the stdout (or stderr) accessor twice
yields the identical string both times and the second access does not change
the state (the first access drains the bound destination and caches, the
second returns the cache); and `close_streams` never fails and calling it a
second time is a no-op returning the same state, because closing an
already-closed stream is skipped. -/
theorem result_laziness_and_close (files : String → List Char) (s : ResultSt) :
    stdout_get files (stdout_get files s).2
      = ((stdout_get files s).1, (stdout_get files s).2)
    ∧ stderr_get files (stderr_get files s).2
      = ((stderr_get files s).1, (stderr_get files s).2)
    ∧ ∃ s1, close_streams files s = .ok s1 ∧ close_streams files s1 = .ok s1 := by
  refine ⟨?_, ?_, ?_⟩
  · rcases h : s.cached_stdout with _ | v <;> simp [stdout_get, h]
  · rcases h : s.cached_stderr with _ | v <;> simp [stderr_get, h]
  · exact ⟨closed_result files s, close_streams_eq files s, by
      rw [close_streams_eq, closed_result_idem]⟩

/-- Looking up an alias that was just appended to an alias table that did not
contain it. -/
theorem lookup_append_of_none {l : List (String × Nat)} {a : String} {i : Nat}
    (h : l.lookup a = none) : (l ++ [(a, i)]).lookup a = some i := by
  induction l with
  | nil => simp [List.lookup]
  | cons p rest ih =>
    rcases p with ⟨k, v⟩
    simp only [List.cons_append, List.lookup] at h ⊢
    cases hak : a == k
    · simp only [hak] at h ⊢
      exact ih h
    · simp only [hak] at h
      exact absurd h (by simp)

/-- C7: registering a second process under an alias already held by a tracked
process is an error (the registry mutation fails, so the registry is left
unchanged), while the alias still resolves to the first process, which
remains tracked. -/
theorem duplicate_alias_is_error {α : Type} (r r1 : Registry α) (p q : α)
    (a : String) (h : register r p (some a) = .ok r1) :
    except_is_error (register r1 q (some a)) = true
    ∧ r1.aliases.lookup a = some (r.connections.length + 1)
    ∧ get_connection r1 (r.connections.length + 1) = some p := by
  simp only [register] at h
  by_cases hl : (r.aliases.lookup a).isSome
  · rw [if_pos hl] at h
    exact absurd h (by simp)
  · rw [if_neg hl] at h
    have hr1 : r1 = ⟨r.connections ++ [p],
        r.aliases ++ [(a, r.connections.length + 1)],
        some (r.connections.length + 1)⟩ := by
      cases h
      rfl
    subst hr1
    have hnone : r.aliases.lookup a = none :=
      Option.not_isSome_iff_eq_none.mp hl
    have hfound : (r.aliases ++ [(a, r.connections.length + 1)]).lookup a
        = some (r.connections.length + 1) := lookup_append_of_none hnone
    refine ⟨?_, hfound, ?_⟩
    · simp only [register]
      rw [if_pos (by simp [hfound])]
      rfl
    · unfold get_connection
      simp [List.getElem?_concat_length]

theorem duplicate_alias_is_error_witness :
    except_is_error
      (register (⟨[7], [("x", 1)], some 1⟩ : Registry Nat) 8 (some "x")) = true
    ∧ get_connection (⟨[7], [("x", 1)], some 1⟩ : Registry Nat) 1 = some 7 := by
  have h := duplicate_alias_is_error (α := Nat) ⟨[], [], none⟩
    ⟨[7], [("x", 1)], some 1⟩ 7 8 "x" (by decide)
  exact ⟨h.1, h.2.2⟩

/-- C8 counterexample: an explicit empty environment mapping does not replace
the inherited environment; `_get_initial_env` treats the falsy `{}` the same
as no mapping at all and `_construct_env` returns `None`, meaning the spawned
process inherits the parent environment rather than receiving an empty one. -/
theorem construct_env_empty_mapping_inherits :
    construct_env (fun v => v) [("PATH", "/bin")] (some []) [] = .ok none
    ∧ (Except.ok none
        ≠ (.ok (some ([] : List (String × String))) :
            Except String (Option (List (String × String)))))
    ∧ construct_env (fun v => v) [("PATH", "/bin")] (some []) []
        = construct_env (fun v => v) [("PATH", "/bin")] none [] := by
  refine ⟨rfl, by decide, rfl⟩

theorem add_to_env_all_prefixed (enc : String → String) :
    ∀ (extra : List (String × String)) (base : List (String × String)),
    (∀ p ∈ extra, py_startswith p.1 "env:" = true) →
    add_to_env enc base extra = .ok (layer_env enc base extra)
  | [], _, _ => rfl
  | (name, value) :: rest, base, h => by
    have hp : py_startswith name "env:" = true := h _ (List.mem_cons_self _ _)
    simp only [add_to_env, hp, if_true, layer_env, List.foldl_cons]
    exact add_to_env_all_prefixed enc rest
      (env_set base (enc (py_drop name 4)) (enc value))
      (fun x hx => h x (List.mem_cons_of_mem _ hx))

/-- C8 (amended): an explicit non-empty environment mapping, with all keys
and values encoded to the platform's native text form, entirely replaces the
inherited environment (the result does not depend on it); an explicit empty
mapping is treated as if no mapping was given; `env:NAME` override entries
are layered on top of either the explicit or the inherited environment. -/
theorem construct_env_replacement (enc : String → String)
    (osenv osenv' : List (String × String)) (l : List (String × String))
    (extra : List (String × String)) (hl : l ≠ [])
    (hx : ∀ p ∈ extra, py_startswith p.1 "env:" = true) :
    construct_env enc osenv (some l) extra
      = .ok (some (layer_env enc (l.map fun p => (enc p.1, enc p.2)) extra))
    ∧ construct_env enc osenv (some l) extra
      = construct_env enc osenv' (some l) extra
    ∧ (extra ≠ [] → construct_env enc osenv none extra
        = .ok (some (layer_env enc osenv extra)))
    ∧ construct_env enc osenv (some ([] : List (String × String))) extra
      = construct_env enc osenv none extra := by
  have htr : env_truthy (some l) = true := by
    simp [env_truthy, List.isEmpty_iff, hl]
  have hmain : ∀ base : List (String × String),
      construct_env enc base (some l) extra
        = .ok (some (layer_env enc (l.map fun p => (enc p.1, enc p.2)) extra)) := by
    intro base
    simp only [construct_env, get_initial_env, htr, if_true, Option.getD_some]
    rw [add_to_env_all_prefixed enc extra _ hx]
    rfl
  refine ⟨hmain osenv, by rw [hmain osenv, hmain osenv'], ?_, rfl⟩
  intro hextra
  simp only [construct_env, get_initial_env, env_truthy, Bool.false_eq_true,
             if_false, if_pos hextra]
  rw [add_to_env_all_prefixed enc extra osenv hx]
  rfl

theorem construct_env_replacement_witness :
    construct_env (fun v => v) [("PATH", "/bin")] (some [("A", "1")])
        [("env:B", "2")]
      = .ok (some [("A", "1"), ("B", "2")]) := by
  have h := (construct_env_replacement (fun v => v) [("PATH", "/bin")] []
    [("A", "1")] [("env:B", "2")] (by decide) (by decide)).1
  rw [h]
  decide

/-- C9 counterexample: the round trip fails as stated at two concrete
inputs.  For the single argument a"b (which contains a quote), joining
escapes the quote with a backslash but the default split does not honour the
escape, so the round trip returns a\b instead of the original argument.  For
the single empty-string argument, joining renders it as nothing (it contains
no space, so it is not quoted), and the empty command line splits back to no
arguments at all. -/
theorem split_join_counterexample :
    split_command_line (join_command_line [['a', '"', 'b']])
      = [['a', '\\', 'b']]
    ∧ [['a', '\\', 'b']] ≠ [['a', '"', 'b']]
    ∧ split_command_line (join_command_line [([] : List Char)]) = []
    ∧ ([] : List (List Char)) ≠ [([] : List Char)] := by
  decide

theorem escape_quotes_of_no_quote :
    ∀ a : List Char, '"' ∉ a → escape_quotes a = a
  | [], _ => rfl
  | c :: t, h => by
    have hc : c ≠ '"' := fun e => h (by rw [e]; exact List.mem_cons_self _ _)
    simp only [escape_quotes, if_neg hc]
    exact congrArg (c :: ·)
      (escape_quotes_of_no_quote t (fun m => h (List.mem_cons_of_mem _ m)))

theorem split_cl_quote (rest : List Char) (inQ : Bool)
    (cur : Option (List Char)) :
    split_cl ('"' :: rest) inQ cur
      = split_cl rest (!inQ) (some (cur.getD [])) := by
  simp [split_cl]

theorem split_cl_sep (rest t : List Char) :
    split_cl (' ' :: rest) false (some t) = t :: split_cl rest false none := by
  simp [split_cl]

theorem split_cl_other (c : Char) (rest : List Char) (inQ : Bool)
    (cur : Option (List Char)) (h1 : c ≠ '"')
    (h2 : ¬(c = ' ' ∧ inQ = false)) :
    split_cl (c :: rest) inQ cur
      = split_cl rest inQ (some (cur.getD [] ++ [c])) := by
  simp only [split_cl, if_neg h1, if_neg h2]

theorem split_cl_accum_false :
    ∀ (t l cur : List Char), '"' ∉ t → ' ' ∉ t →
    split_cl (t ++ l) false (some cur) = split_cl l false (some (cur ++ t))
  | [], l, cur, _, _ => by simp
  | c :: t, l, cur, h1, h2 => by
    have hc1 : c ≠ '"' :=
      fun e => h1 (by rw [e]; exact List.mem_cons_self _ _)
    have hc2 : ¬(c = ' ' ∧ (false : Bool) = false) := by
      rintro ⟨e, -⟩
      exact h2 (by rw [e]; exact List.mem_cons_self _ _)
    rw [List.cons_append, split_cl_other c (t ++ l) false (some cur) hc1 hc2,
        Option.getD_some,
        split_cl_accum_false t l (cur ++ [c])
          (fun m => h1 (List.mem_cons_of_mem _ m))
          (fun m => h2 (List.mem_cons_of_mem _ m))]
    simp

theorem split_cl_accum_true :
    ∀ (t l cur : List Char), '"' ∉ t →
    split_cl (t ++ l) true (some cur) = split_cl l true (some (cur ++ t))
  | [], l, cur, _ => by simp
  | c :: t, l, cur, h1 => by
    have hc1 : c ≠ '"' :=
      fun e => h1 (by rw [e]; exact List.mem_cons_self _ _)
    have hc2 : ¬(c = ' ' ∧ (true : Bool) = false) := by
      rintro ⟨-, e⟩
      exact absurd e (by decide)
    rw [List.cons_append, split_cl_other c (t ++ l) true (some cur) hc1 hc2,
        Option.getD_some,
        split_cl_accum_true t l (cur ++ [c])
          (fun m => h1 (List.mem_cons_of_mem _ m))]
    simp

theorem split_cl_quote_arg (a l : List Char) (ha : a ≠ []) (hq : '"' ∉ a) :
    split_cl (quote_arg a ++ l) false none = split_cl l false (some a) := by
  unfold quote_arg
  rw [escape_quotes_of_no_quote a hq]
  by_cases hsp : ' ' ∈ a
  · rw [if_pos hsp]
    have harr : ('"' :: (a ++ ['"'])) ++ l = '"' :: (a ++ ('"' :: l)) := by
      simp
    rw [harr, split_cl_quote]
    simp only [Bool.not_false, Option.getD_none]
    rw [split_cl_accum_true a ('"' :: l) [] hq, split_cl_quote]
    simp
  · rw [if_neg hsp]
    rcases a with _ | ⟨c, t⟩
    · exact absurd rfl ha
    · have hc1 : c ≠ '"' :=
        fun e => hq (by rw [e]; exact List.mem_cons_self _ _)
      have hc2 : ¬(c = ' ' ∧ (false : Bool) = false) := by
        rintro ⟨e, -⟩
        exact hsp (by rw [e]; exact List.mem_cons_self _ _)
      rw [List.cons_append, split_cl_other c (t ++ l) false none hc1 hc2,
          split_cl_accum_false t l (Option.getD none [] ++ [c])
            (fun m => hq (List.mem_cons_of_mem _ m))
            (fun m => hsp (List.mem_cons_of_mem _ m))]
      simp

/-- C9 (amended): for every sequence of nonempty arguments that contain no
double-quote character (spaces allowed), splitting the joined command line
returns the original sequence.  Both exclusions are forced by concrete
failures: an argument containing a quote breaks the round trip because join
escapes quotes with a backslash while the default split does not honour
escapes, and an empty-string argument is dropped because join renders it as
nothing. -/
theorem split_join_roundtrip :
    ∀ args : List (List Char), (∀ a ∈ args, a ≠ [] ∧ '"' ∉ a) →
    split_command_line (join_command_line args) = args
  | [], _ => rfl
  | [a], h => by
    obtain ⟨ha, hq⟩ := h a (List.mem_cons_self _ _)
    unfold split_command_line
    have hj : join_command_line [a] = quote_arg a ++ [] := by
      simp [join_command_line]
    rw [hj, split_cl_quote_arg a [] ha hq]
    rfl
  | a :: b :: rest, h => by
    obtain ⟨ha, hq⟩ := h a (List.mem_cons_self _ _)
    unfold split_command_line
    have hj : join_command_line (a :: b :: rest)
        = quote_arg a ++ ' ' :: join_command_line (b :: rest) := rfl
    rw [hj, split_cl_quote_arg a (' ' :: join_command_line (b :: rest)) ha hq,
        split_cl_sep]
    have ih := split_join_roundtrip (b :: rest)
      (fun x hx => h x (List.mem_cons_of_mem _ hx))
    unfold split_command_line at ih
    rw [ih]

theorem split_join_roundtrip_witness :
    split_command_line
        (join_command_line ["--option".data, "value with spaces".data])
      = ["--option".data, "value with spaces".data] :=
  split_join_roundtrip ["--option".data, "value with spaces".data] (by decide)

end RobotProcess
